import Mathlib

/-
Verification of the cape_audit report-verification engine.

The embedding follows src/cape_audit/verifiers.py and src/cape_audit/cape_audit.py.
Python values that can appear in a parsed report.json (json.loads output) are
modelled by `JValue`; Python None and JSON null coincide (both are `JValue.null`).
Fallible Python code (code that can raise) is modelled in `Except String`.
The external regular-expression library (Python `re`) is modelled at its
interface: a compile function `String → Option (String → Bool)` where `none`
means `re.compile` raises and `some search` is the compiled pattern viewed as
its `search` method (returning whether a match exists).
-/

/-- A JSON-like Python value: the values `json.loads` can produce.
Numbers are modelled as integers (the claims do not involve floats).
A Python dict is a list of key-value entries with (by dict semantics) unique
keys, in insertion order. -/
inductive JValue where
  | null
  | bool (b : Bool)
  | num (n : Int)
  | str (s : String)
  | arr (items : List JValue)
  | obj (entries : List (String × JValue))

/-- Python type name, as `type(v).__name__` renders it. -/
def pyTypeName : JValue → String
  | .null => "NoneType"
  | .bool _ => "bool"
  | .num _ => "int"
  | .str _ => "str"
  | .arr _ => "list"
  | .obj _ => "dict"

/-- Python `len(v)` : defined for sized values, `none` models the `TypeError`
raised for values without a length. -/
def pyLen : JValue → Option Nat
  | .str s => some s.length
  | .arr items => some items.length
  | .obj entries => some entries.length
  | _ => none

/-- Python truthiness of a value (`bool(v)`). -/
def pyTruthy : JValue → Bool
  | .null => false
  | .bool b => b
  | .num n => n != 0
  | .str s => !(s.isEmpty)
  | .arr items => !(items.isEmpty)
  | .obj entries => !(entries.isEmpty)

/-- The single-quote character, written by code point to keep source tidy. -/
def squote : Char := Char.ofNat 39

/-- Escape a string body for Python string repr with the given quote char. -/
def pyEscape (quote : Char) (s : String) : String :=
  s.foldl
    (fun acc c =>
      if c = '\\' then acc ++ "\\\\"
      else if c = quote then acc ++ "\\" ++ String.singleton c
      else if c = '\n' then acc ++ "\\n"
      else if c = '\r' then acc ++ "\\r"
      else if c = '\t' then acc ++ "\\t"
      else acc ++ String.singleton c)
    ""

/-- Python repr of a string: single quotes, switching to double quotes when the
string contains a single quote but no double quote (CPython rule; the model
covers printable characters plus the common escapes). -/
def pyReprString (s : String) : String :=
  if s.contains squote && !(s.contains '"') then
    "\"" ++ pyEscape '"' s ++ "\""
  else
    String.singleton squote ++ pyEscape squote s ++ String.singleton squote

mutual

/-- Python `repr(v)` for JSON-like values. -/
def pyRepr : JValue → String
  | .null => "None"
  | .bool true => "True"
  | .bool false => "False"
  | .num n => toString n
  | .str s => pyReprString s
  | .arr items => "[" ++ pyReprList items ++ "]"
  | .obj entries => "\x7b" ++ pyReprEntries entries ++ "\x7d"

/-- Comma-separated reprs of list elements. -/
def pyReprList : List JValue → String
  | [] => ""
  | [v] => pyRepr v
  | v :: rest => pyRepr v ++ ", " ++ pyReprList rest

/-- Comma-separated reprs of dict entries. -/
def pyReprEntries : List (String × JValue) → String
  | [] => ""
  | [(k, v)] => pyReprString k ++ ": " ++ pyRepr v
  | (k, v) :: rest => pyReprString k ++ ": " ++ pyRepr v ++ ", " ++ pyReprEntries rest

end

/-- Python `str(v)`: identical to repr except on strings, where it is the
string itself. -/
def pyStr : JValue → String
  | .str s => s
  | v => pyRepr v

/-- Python `str.split(sep)` for a single-character separator, on the character
list of the string. -/
def pySplitAux (sep : Char) : List Char → String → List String
  | [], acc => [acc]
  | c :: cs, acc =>
      if c = sep then acc :: pySplitAux sep cs ""
      else pySplitAux sep cs (acc.push c)

/-- Python `s.split(sep)` for a single-character separator: always returns a
non-empty list; the empty string splits to `[""]`. -/
def pySplit (sep : Char) (s : String) : List String :=
  pySplitAux sep s.toList ""

mutual

/-- `VerifyReportSectionHasMatching._resolve_path`, on an already-split key
list (the Python code re-joins the remaining keys with "/" and re-splits them
in the recursive call, which round-trips to the same key list since keys,
being split results, contain no slash).
Walking: a list fans out over its elements with the remaining keys and
flattens; a dict consumes one key (absent key behaves as None, like
`dict.get`); a scalar or None with keys remaining resolves to None; with no
keys left the current value is returned. -/
def resolvePathKeys : JValue → List String → JValue
  | current, [] => current
  | .arr items, key :: rest => .arr (resolveEach items (key :: rest))
  | .obj entries, key :: rest => resolveObj entries key rest
  | _, _ :: _ => .null

/-- The flattening loop of `_resolve_path` over the elements of a list:
list results are concatenated, None results are dropped, other results are
appended. -/
def resolveEach : List JValue → List String → List JValue
  | [], _ => []
  | item :: rest, keys =>
      match resolvePathKeys item keys with
      | .arr rs => rs ++ resolveEach rest keys
      | .null => resolveEach rest keys
      | v => v :: resolveEach rest keys

/-- `current.get(key)` followed by continuing the walk with the remaining
keys: fused into one recursion so the definition is structural. A missing key
yields None, and continuing a walk from None yields None. -/
def resolveObj : List (String × JValue) → String → List String → JValue
  | [], _, _ => .null
  | (k, v) :: es, key, rest =>
      if k = key then resolvePathKeys v rest else resolveObj es key rest

end

/-- `VerifyReportSectionHasMatching._resolve_path(data, path)`:
split the path on "/" and walk. -/
def resolvePath (data : JValue) (path : String) : JValue :=
  resolvePathKeys data (pySplit '/' path)

example : pySplit '/' "behavior/processes/calls" = ["behavior", "processes", "calls"] := by decide

example :
    resolvePath
      (.obj [("behavior", .obj [("processes",
        .arr [.obj [("calls", .arr [.str "a", .str "b"])],
              .obj [("calls", .arr [.str "c"])]])])])
      "behavior/processes/calls"
      = .arr [.str "a", .str "b", .str "c"] := by
  rfl

deriving instance DecidableEq for Except

/-- Interface model of the external `re` module: `compile pat` is `none` when
`re.compile(pat)` raises `re.error`, and otherwise the compiled pattern viewed
as its search method (`search` returning whether any match exists). -/
abbrev RegexCompiler := String → Option (String → Bool)

/-- The normalization `found_list = found if isinstance(found, list) else [found]`
from `_verify_value`: lists are kept, every other value (including None) is
wrapped as a singleton. -/
def foundListOf (found : JValue) : List JValue :=
  match found with
  | .arr items => items
  | v => [v]

/-- `VerifyReportSectionHasMatching._verify_value(found, expected)`.
In regex mode the expected value is compiled (raising for non-strings and for
patterns the compiler rejects) and searched against `str(v)` for each element
of the normalized list. Otherwise list-found compares `str(v) == str(expected)`
over elements, and non-list found compares `str(found) == str(expected)`
directly (note: None is wrapped, not dropped, so it compares as "None"). -/
def verify_value (is_regexes : Bool) (compile : RegexCompiler)
    (found expected : JValue) : Except String Bool :=
  let found_list := foundListOf found
  if is_regexes then
    match expected with
    | .str pat =>
        match compile pat with
        | some search => .ok (found_list.any fun v => search (pyStr v))
        | none => .error "re.error: bad pattern"
    | _ => .error "TypeError: first argument must be string or compiled pattern"
  else
    match found with
    | .arr items => .ok (items.any fun v => pyStr v == pyStr expected)
    | v => .ok (pyStr v == pyStr expected)

/-- `next(iter(criterion.items()))`: the first entry of a dict, a
`StopIteration` fault on an empty dict, an `AttributeError` fault on a
non-dict. -/
def firstItem : JValue → Except String (String × JValue)
  | .obj (e :: _) => .ok e
  | .obj [] => .error "StopIteration: criterion mapping is empty"
  | v => .error ("AttributeError: " ++ pyTypeName v ++ " object has no attribute items")

/-- One iteration of the criterion loop body in
`VerifyReportSectionHasMatching.evaluate`: take the single entry of the
criterion, resolve its path relative to the target element, and test with
`_verify_value`. -/
def evalCriterion (is_regexes : Bool) (compile : RegexCompiler)
    (target criterion : JValue) : Except String Bool := do
  let (expected_path, expected_value) ← firstItem criterion
  verify_value is_regexes compile (resolvePath target expected_path) expected_value

/-- The inner `for criterion in self.match_criteria` loop of `evaluate`, with
accumulator `match_count`: on a match the count is incremented and, if it has
reached `match_count_target`, the whole evaluation returns True early
(`.ok true` here); a non-matching criterion does not stop the loop. Returns
`.ok false` when the loop finishes without the early return. -/
def runCriteria (is_regexes : Bool) (compile : RegexCompiler)
    (match_count_target : Nat) (target : JValue) :
    List JValue → Nat → Except String Bool
  | [], _ => .ok false
  | criterion :: rest, match_count => do
      let matched ← evalCriterion is_regexes compile target criterion
      if matched then
        if match_count + 1 ≥ match_count_target then .ok true
        else runCriteria is_regexes compile match_count_target target rest (match_count + 1)
      else runCriteria is_regexes compile match_count_target target rest match_count

/-- The outer `for target in targets` loop of `evaluate`: the first target
whose criterion loop early-returns makes the whole evaluation True; if no
target does, the evaluation returns False. -/
def runTargets (is_regexes : Bool) (compile : RegexCompiler)
    (criteria : List JValue) : List JValue → Except String Bool
  | [] => .ok false
  | target :: rest => do
      let early ← runCriteria is_regexes compile criteria.length target criteria 0
      if early then .ok true
      else runTargets is_regexes compile criteria rest

/-- The target-list normalization at the start of `evaluate`:
`targets = self._resolve_path(report, self.path)` followed by
`if not isinstance(targets, list): targets = [targets] if targets else []` —
note the Python truthiness test: a falsy non-list resolution (None, 0, "",
False, empty dict) yields no targets. -/
def computeTargets (report : JValue) (path : String) : List JValue :=
  match resolvePath report path with
  | .arr items => items
  | t => if pyTruthy t then [t] else []

/-- The per-criterion length test inside
`VerifyReportSectionHasMatching.check_criteria_format`:
`len(criterion) != 1` raises `ValueError`; `len` itself raises `TypeError` on
values without a length. Note the source's per-element `isinstance` test
re-tests the outer `self.match_criteria` (not `criterion`) and so can never
fire; only the length test constrains elements. -/
def checkCriterionLen (criterion : JValue) : Except String Unit :=
  match pyLen criterion with
  | none => .error ("TypeError: object of type " ++ pyTypeName criterion ++ " has no len")
  | some n =>
      if n = 1 then .ok ()
      else .error ("Invalid criteria: " ++ pyRepr criterion ++ ". Expected exactly one key-value pair.")

/-- `VerifyReportSectionHasMatching.check_criteria_format`, run during
`__init__`: None passes, a non-list raises `TypeError`, and each element of a
list is subjected to the length-1 test. -/
def check_criteria_format (match_criteria : JValue) : Except String Unit :=
  match match_criteria with
  | .null => .ok ()
  | .arr criteria => criteria.forM checkCriterionLen
  | mc => .error ("TypeError: match_criteria must be a list, got " ++ pyTypeName mc)

/-- The `VerifyReportSectionHasMatching` verifier configuration: a bound path,
a criteria set (`JValue.null` models the Python `None` marker), and the regex
flag. -/
structure VerifyReportSectionHasMatching where
  path : String
  match_criteria : JValue
  is_regexes : Bool

/-- `VerifyReportSectionHasMatching.__init__`: stores the configuration and
runs `check_criteria_format`, so a malformed criteria set faults at
construction. -/
def VerifyReportSectionHasMatching.construct (path : String)
    (match_criteria : JValue) (is_regexes : Bool) :
    Except String VerifyReportSectionHasMatching := do
  check_criteria_format match_criteria
  .ok ⟨path, match_criteria, is_regexes⟩

/-- `VerifyReportSectionHasMatching.has_content`: resolve the bound path and
test the Python truthiness of the result. -/
def VerifyReportSectionHasMatching.has_content
    (v : VerifyReportSectionHasMatching) (report : JValue) : Bool :=
  pyTruthy (resolvePath report v.path)

/-- `VerifyReportSectionHasMatching.evaluate(report, report_string,
test_storage_directory)`. The raw string and storage directory are accepted
and ignored by this verifier. A criteria set of None returns True
unconditionally; otherwise the nested loops run. (A criteria set that is
neither None nor a list is rejected at construction and cannot reach
evaluation; that unreachable arm is modelled as a fault.) -/
def VerifyReportSectionHasMatching.evaluate
    (v : VerifyReportSectionHasMatching) (compile : RegexCompiler)
    (report : JValue) (report_string : String)
    (test_storage_directory : String) : Except String Bool :=
  let targets := computeTargets report v.path
  match v.match_criteria with
  | .null => .ok true
  | .arr criteria => runTargets v.is_regexes compile criteria targets
  | _ => .error "TypeError: match_criteria has no len"

/-- The `VerifyReportSectionHasContent` verifier configuration: a bound path. -/
structure VerifyReportSectionHasContent where
  path : String

/-- `VerifyReportSectionHasContent.evaluate`: builds an inner
`VerifyReportSectionHasMatching(self.path, [])` (whose construction check
accepts the empty list) and returns its `has_content` on the parsed report.
The raw string and storage directory are accepted and ignored. -/
def VerifyReportSectionHasContent.evaluate
    (v : VerifyReportSectionHasContent) (report : JValue)
    (report_string : String) (test_storage_directory : String) : Bool :=
  VerifyReportSectionHasMatching.has_content ⟨v.path, .arr [], false⟩ report

example :
    VerifyReportSectionHasMatching.evaluate
      ⟨"behavior/processes/calls",
       .arr [.obj [("api", .str "OutputDebugStringA")],
             .obj [("arguments/value", .str "FLAG_1")]], false⟩
      (fun _ => none)
      (.obj [("behavior", .obj [("processes",
        .arr [.obj [("calls",
          .arr [.obj [("api", .str "OutputDebugStringA"),
                      ("arguments", .obj [("value", .str "FLAG_1")])]])]])])])
      "" "" = .ok true := by decide

example :
    VerifyReportSectionHasMatching.evaluate
      ⟨"behavior/processes/calls",
       .arr [.obj [("api", .str "OutputDebugStringA")],
             .obj [("arguments/value", .str "FLAG_2")]], false⟩
      (fun _ => none)
      (.obj [("behavior", .obj [("processes",
        .arr [.obj [("calls",
          .arr [.obj [("api", .str "OutputDebugStringA"),
                      ("arguments", .obj [("value", .str "FLAG_1")])]])]])])])
      "" "" = .ok false := by decide

/-- A node of the external filesystem as the file-pattern verifier observes
it: a regular file with its content (read uniformly as a string; the
binary/text distinction of the read mode is outside the model), or a
directory-like non-regular entry. -/
inductive FSNode where
  | file (content : String)
  | dir

/-- The filesystem at evaluation time: absolute normalized path segments to
the node there, `none` when nothing exists at that path. -/
abbrev FileSystem := List String → Option FSNode

/-- Lexical normalization performed by `pathlib.Path.resolve()` on a
symlink-free tree: drop empty and `.` segments, let `..` remove the previous
segment (and stay at the root when there is none). -/
def normalizeSegs (segs : List String) : List String :=
  segs.foldl
    (fun acc s =>
      if s = "" || s = "." then acc
      else if s = ".." then acc.dropLast
      else acc ++ [s])
    []

/-- `Path(test_storage_directory).resolve()` for an absolute storage
directory string, as normalized segments. -/
def storageBase (test_storage_directory : String) : List String :=
  normalizeSegs (pySplit '/' test_storage_directory)

/-- Whether a path string is absolute (starts with a slash). -/
def isAbsolutePath (s : String) : Bool :=
  match s.toList with
  | c :: _ => c = '/'
  | [] => false

/-- `(base_dir / self.relative_path).resolve()`: pathlib discards the base
when the right operand is absolute, otherwise appends, then normalizes. -/
def resolvedFilePath (test_storage_directory relative_path : String) :
    List String :=
  if isAbsolutePath relative_path then
    normalizeSegs (pySplit '/' relative_path)
  else
    normalizeSegs (storageBase test_storage_directory ++ pySplit '/' relative_path)

/-- The `VerifyFileContainsPattern` verifier configuration: a storage-relative
path, the precompiled pattern viewed as its search method over the file
content, and the binary-mode flag (which in the source only selects the read
mode). -/
structure VerifyFileContainsPattern where
  relative_path : String
  search : String → Bool
  binary_mode : Bool

/-- `VerifyFileContainsPattern.evaluate`: resolve the storage root and the
file path; if the resolved file path does not remain under the root
(`file_path.relative_to(base_dir)` raising `ValueError`), fault; else a
missing path or a non-regular file yields False; else read the file and
search the pattern in its content. The parsed report and raw string are
accepted and ignored. -/
def VerifyFileContainsPattern.evaluate (v : VerifyFileContainsPattern)
    (fs : FileSystem) (report : JValue) (report_string : String)
    (test_storage_directory : String) : Except String Bool :=
  let base_dir := storageBase test_storage_directory
  let file_path := resolvedFilePath test_storage_directory v.relative_path
  if base_dir.isPrefixOf file_path then
    match fs file_path with
    | none => .ok false
    | some .dir => .ok false
    | some (.file data) => .ok (v.search data)
  else
    .error ("Non-relative path supplied to VerifyFileContainsPattern: " ++ v.relative_path)

/-- The `ObjectiveResult` enumeration of objective states. -/
inductive ObjectiveResult where
  | untested
  | success
  | failure
  | error
  | info
  | skipped
deriving DecidableEq

/-- The evaluation context a `CapeTestObjective` receives via
`set_test_data`: parsed report, raw report string, storage path. -/
structure Ctx where
  report : JValue
  report_string : String
  storage_path : String

/-- A bound verifier: the `evaluate` capability of the duck-typed verifier
object attached to an objective, as a function of the propagated context;
faults it raises are `Except.error`. -/
abbrev BoundVerifier := Ctx → Except String Bool

/-- `MissingResultVerifier.evaluate`: the default verifier always faults. -/
def missingResultVerifier : BoundVerifier :=
  fun _ => .error "No verifier was attached to this objective"

/-- A `CapeTestObjective` tree node: name, informational flag, the two
message templates, the bound verifier, and the ordered children. -/
inductive CapeTestObjective where
  | node (name : String) (is_informational : Bool)
      (success_msg failure_msg : String)
      (result_verifier : BoundVerifier)
      (children : List CapeTestObjective)

/-- The objective name. -/
def CapeTestObjective.name : CapeTestObjective → String
  | .node n _ _ _ _ _ => n

/-- The informational flag. -/
def CapeTestObjective.is_informational : CapeTestObjective → Bool
  | .node _ i _ _ _ _ => i

/-- The success message template. -/
def CapeTestObjective.success_msg : CapeTestObjective → String
  | .node _ _ s _ _ _ => s

/-- The failure message template. -/
def CapeTestObjective.failure_msg : CapeTestObjective → String
  | .node _ _ _ f _ _ => f

/-- The bound verifier. -/
def CapeTestObjective.result_verifier : CapeTestObjective → BoundVerifier
  | .node _ _ _ _ v _ => v

/-- The ordered child objectives. -/
def CapeTestObjective.children : CapeTestObjective → List CapeTestObjective
  | .node _ _ _ _ _ cs => cs

/-- One node of the `get_results()` projection: final state, state reason,
and the name-keyed child results in insertion order. -/
inductive ResultTree where
  | node (state : ObjectiveResult) (state_reason : String)
      (children : List (String × ResultTree))

/-- The final state at this result node. -/
def ResultTree.state : ResultTree → ObjectiveResult
  | .node st _ _ => st

/-- The state reason at this result node. -/
def ResultTree.state_reason : ResultTree → String
  | .node _ r _ => r

/-- The child results at this result node. -/
def ResultTree.children : ResultTree → List (String × ResultTree)
  | .node _ _ cs => cs

mutual

/-- `CapeTestObjective.set_skipped`, composed with the `get_results`
projection: the node and, with the same reason, every transitive descendant
becomes Skipped; no verifier is consulted. -/
def setSkipped (reason : String) : CapeTestObjective → ResultTree
  | .node _ _ _ _ _ children => .node .skipped reason (setSkippedList reason children)

/-- `set_skipped` over a child list, keyed by child name. -/
def setSkippedList (reason : String) :
    List CapeTestObjective → List (String × ResultTree)
  | [] => []
  | c :: cs => (c.name, setSkipped reason c) :: setSkippedList reason cs

end

mutual

/-- `CapeTestObjective.run_objective_verification`, composed with the
`get_results` projection, together with the names of the objectives whose
bound verifier was actually invoked, in invocation order. The verifier call
is wrapped in try/except: a returned boolean selects the message and, unless
the objective is informational, the Success/Failure state (an informational
objective gets state Info either way); a fault becomes state Error with a
reason embedding the fault text, and is logged rather than re-raised. Then,
on Success or Info, the context is propagated unchanged to every child
(`set_test_data`) and each child runs recursively; on any other state every
descendant is forced to Skipped without its verifier being invoked. -/
def runObjectiveVerification (ctx : Ctx) :
    CapeTestObjective → ResultTree × List String
  | .node name is_informational success_msg failure_msg result_verifier children =>
      let outcome : ObjectiveResult × String :=
        match result_verifier ctx with
        | .ok result =>
            (if is_informational then .info
             else if result then .success else .failure,
             if result then success_msg else failure_msg)
        | .error e =>
            (.error, "An exception was thrown during verification: " ++ e)
      if outcome.1 = .success ∨ outcome.1 = .info then
        let sub := runChildren ctx children
        (.node outcome.1 outcome.2 sub.1, name :: sub.2)
      else
        (.node outcome.1 outcome.2
          (setSkippedList "The parent objective was not met" children),
         [name])

/-- The child loop of `run_objective_verification`, which is also the loop of
`CapeDynamicTestBase._run_objective_verification` over root objectives: each
objective in order receives the context and runs; the name-keyed results and
the concatenated invocation lists are returned. -/
def runChildren (ctx : Ctx) :
    List CapeTestObjective → List (String × ResultTree) × List String
  | [] => ([], [])
  | c :: cs =>
      let r := runObjectiveVerification ctx c
      let rs := runChildren ctx cs
      ((c.name, r.1) :: rs.1, r.2 ++ rs.2)

end

mutual

/-- Every node of this result tree, the root included, has state Skipped. -/
def ResultTree.allSkipped : ResultTree → Bool
  | .node .skipped _ children => allSkippedList children
  | _ => false

/-- `ResultTree.allSkipped` over name-keyed child results. -/
def allSkippedList : List (String × ResultTree) → Bool
  | [] => true
  | (_, t) :: rest => t.allSkipped && allSkippedList rest

end

/-- A concrete regex-compiler instance for closed statements: every pattern
compiles, to a search that always reports a match. -/
def cmpAll : RegexCompiler := fun _ => some (fun _ => true)

/-- A concrete regex-compiler instance for closed statements: no pattern
compiles. -/
def cmpNone : RegexCompiler := fun _ => none

/-- With an empty criteria list the criterion loop body never runs, so no
target can trigger the early success return and the target loop falls through
to False. -/
lemma runTargets_empty_criteria (is_regexes : Bool) (compile : RegexCompiler) :
    ∀ ts : List JValue, runTargets is_regexes compile [] ts = .ok false := by
  intro ts
  induction ts with
  | nil => rfl
  | cons t rest ih => simpa [runTargets, runCriteria] using ih

/-- C10: a structured-criteria verifier constructed with an empty criteria
list (as opposed to the absent/None marker) is accepted at construction and
returns False from evaluate for every document, raw text, storage root, mode
and regex compiler — even when the bound path resolves to non-empty content —
because success is only declared inside the per-criterion loop, which never
runs with zero criteria. -/
theorem claim_C10_empty_criteria_always_false (path : String)
    (is_regexes : Bool) (compile : RegexCompiler) (report : JValue)
    (report_string test_storage_directory : String) :
    check_criteria_format (.arr []) = .ok () ∧
    VerifyReportSectionHasMatching.evaluate ⟨path, .arr [], is_regexes⟩
      compile report report_string test_storage_directory = .ok false := by
  refine ⟨rfl, ?_⟩
  simpa [VerifyReportSectionHasMatching.evaluate]
    using runTargets_empty_criteria is_regexes compile
      (computeTargets report path)

/-- The element loop of `_resolve_path` is an order-preserving flatten:
list results are concatenated, None results dropped, scalar and mapping
results appended. -/
lemma resolveEach_eq_flatMap (keys : List String) :
    ∀ items : List JValue,
      resolveEach items keys
        = items.flatMap fun item =>
            match resolvePathKeys item keys with
            | .arr rs => rs
            | .null => []
            | v => [v] := by
  intro items
  induction items with
  | nil => rfl
  | cons item rest ih =>
      show (match resolvePathKeys item keys with
            | .arr rs => rs ++ resolveEach rest keys
            | .null => resolveEach rest keys
            | v => v :: resolveEach rest keys) = _
      cases h : resolvePathKeys item keys <;>
        simp [List.flatMap_cons, h, ih]

/-- C5: path resolution fans out at a sequence node: with segments remaining,
no segment is consumed on the sequence itself; the remaining segments are
resolved against each element in order and the results are flattened —
sequence results concatenated element-wise, null/absent results dropped,
other results appended — preserving element order. -/
theorem claim_C5_fanout (items : List JValue) (keys : List String)
    (h : keys ≠ []) :
    resolvePathKeys (.arr items) keys
      = .arr (items.flatMap fun item =>
          match resolvePathKeys item keys with
          | .arr rs => rs
          | .null => []
          | v => [v]) := by
  match keys, h with
  | key :: rest, _ =>
      show JValue.arr (resolveEach items (key :: rest)) = _
      rw [resolveEach_eq_flatMap]

/-- Witness for C5 at the spec's own shape: two elements with list-valued
results are concatenated in order and a null element is dropped. -/
theorem claim_C5_fanout_witness :
    (["calls"] ≠ ([] : List String)) ∧
    resolvePathKeys
      (.arr [.obj [("calls", .arr [.str "a", .str "b"])],
             .null,
             .obj [("calls", .arr [.str "c"])]])
      ["calls"]
      = .arr [.str "a", .str "b", .str "c"] :=
  ⟨by decide, (claim_C5_fanout _ ["calls"] (by decide)).trans rfl⟩

/-- The content predicate as the C3 claim words it (spec-following definition,
used only to compare the code against the claim): content means a non-empty
list after flattening, or a non-null scalar. -/
def specHasContent : JValue → Bool
  | .arr items => !(items.isEmpty)
  | .null => false
  | _ => true

/-- C3 counterexample: for the document with the number 0 at the bound path,
the path resolves to a non-null scalar — content as the claim words it — yet
the content-presence verifier returns False, because the source tests Python
truthiness of the resolved value (`if targets:`), under which 0 is falsy. So
success is not equivalent to the claimed content condition. -/
theorem claim_C3_counterexample :
    ¬ ((VerifyReportSectionHasContent.evaluate ⟨"a"⟩
          (.obj [("a", .num 0)]) "" "" = true) ↔
       (specHasContent (resolvePath (.obj [("a", .num 0)]) "a") = true)) := by
  decide

/-- C3 amended: the content-presence verifier succeeds iff the bound path
resolves to a Python-truthy value (non-empty sequence, mapping or string,
non-zero number, True); in particular it fails when the path resolves to
nothing — but it also fails on falsy scalars such as 0, "" and False and on
empty mappings. The structured-criteria verifier's criteria-absent rule
(absent criteria mean unconditional success, even when the path resolves to
nothing) does not leak into it. -/
theorem claim_C3_amended (path : String) (report : JValue)
    (report_string test_storage_directory : String) :
    (VerifyReportSectionHasContent.evaluate ⟨path⟩ report
        report_string test_storage_directory
      = pyTruthy (resolvePath report path)) ∧
    (resolvePath report path = .null →
      VerifyReportSectionHasContent.evaluate ⟨path⟩ report
        report_string test_storage_directory = false) ∧
    (∀ (compile : RegexCompiler) (rs2 ts2 : String),
      VerifyReportSectionHasMatching.evaluate ⟨path, .null, false⟩
        compile report rs2 ts2 = .ok true) := by
  refine ⟨rfl, ?_, ?_⟩
  · intro h
    simp [VerifyReportSectionHasContent.evaluate,
      VerifyReportSectionHasMatching.has_content, h, pyTruthy]
  · intro compile rs2 ts2
    rfl

/-- Witness for C3 (amended): a path absent from the document resolves to
nothing, and the content-presence verifier fails there, while the
structured-criteria verifier with absent criteria succeeds on the same
document. -/
theorem claim_C3_amended_witness :
    (resolvePath (.obj [("b", .num 1)]) "a" = .null) ∧
    VerifyReportSectionHasContent.evaluate ⟨"a"⟩ (.obj [("b", .num 1)]) "" ""
      = false ∧
    VerifyReportSectionHasMatching.evaluate ⟨"a", .null, false⟩ cmpNone
      (.obj [("b", .num 1)]) "" "" = .ok true :=
  ⟨rfl,
   (claim_C3_amended "a" (.obj [("b", .num 1)]) "" "").2.1 rfl,
   (claim_C3_amended "a" (.obj [("b", .num 1)]) "" "").2.2 cmpNone "" ""⟩

/-- C1 counterexample: the claim says an absent resolution can never match,
but `_verify_value` wraps a non-list `found` — including None — as a
singleton rather than normalizing empty/absent to the empty sequence, and
then compares `str(found)`; since `str(None)` is "None", an expected value
of "None" matches an absent value, both at the match-rule level and through
a full evaluate whose criterion path resolves to nothing. -/
theorem claim_C1_counterexample :
    verify_value false cmpNone .null (.str "None") = .ok true ∧
    VerifyReportSectionHasMatching.evaluate
      ⟨"a", .arr [.obj [("missing", .str "None")]], false⟩ cmpNone
      (.obj [("a", .obj [("x", .num 1)])]) "" "" = .ok true := by
  exact ⟨rfl, by decide⟩

/-- C1 amended: `found` is normalized by wrapping every non-list value —
including the absent/None result — as a singleton and leaving lists
unchanged. An empty normalized list never matches, in regex mode (whether or
not the pattern compiles) and in exact mode. In both modes the match is an
existential over the normalized list of textual renderings; in particular a
criterion whose path resolves to absent compares as the text "None" in exact
mode (and as a search over "None" in regex mode), so it can match. -/
theorem claim_C1_amended (is_regexes : Bool) (compile : RegexCompiler)
    (found expected : JValue) (pat : String) (search : String → Bool)
    (hc : compile pat = some search) :
    (verify_value is_regexes compile (.arr []) expected ≠ .ok true) ∧
    (verify_value false compile found expected
      = .ok ((foundListOf found).any fun v => pyStr v == pyStr expected)) ∧
    (verify_value true compile found (.str pat)
      = .ok ((foundListOf found).any fun v => search (pyStr v))) ∧
    (verify_value false compile .null expected
      = .ok (pyStr .null == pyStr expected)) := by
  refine ⟨?_, ?_, ?_, rfl⟩
  · cases is_regexes with
    | false => simp [verify_value, foundListOf]
    | true =>
        cases expected <;>
          simp [verify_value, foundListOf] <;>
          cases h : compile _ <;> simp
  · cases found <;> simp [verify_value, foundListOf]
  · simp [verify_value, hc]

/-- Witness for C1 (amended): with a compiler under which the pattern "p"
compiles to an always-matching search, the empty normalized list still never
matches, and an absent value in exact mode matches exactly the text "None". -/
theorem claim_C1_amended_witness :
    (cmpAll "p" = some (fun _ => true)) ∧
    (verify_value true cmpAll (.arr []) (.str "p") ≠ .ok true) ∧
    (verify_value false cmpAll .null (.str "None")
      = .ok (pyStr .null == pyStr (.str "None"))) :=
  ⟨rfl,
   (claim_C1_amended true cmpAll (.arr []) (.str "p") "p" (fun _ => true) rfl).1,
   (claim_C1_amended false cmpAll .null (.str "None") "p" (fun _ => true) rfl).2.2.2⟩

/-- C2: the construction-time check accepts a criteria element that is not a
mapping at all, as long as its Python length is 1 — here the single-element
list ["x"] — because the per-element `isinstance` test in
`check_criteria_format` re-tests the outer `match_criteria` instead of the
element (a copy-paste slip; only `len(criterion) != 1` constrains elements).
The malformation then surfaces at evaluation time instead: with any target
element present, `next(iter(criterion.items()))` faults on the list. -/
theorem claim_C2_nonmapping_element_passes_construction :
    check_criteria_format (.arr [.arr [.str "x"]]) = .ok () ∧
    VerifyReportSectionHasMatching.evaluate
      ⟨"a", .arr [.arr [.str "x"]], false⟩ cmpNone
      (.obj [("a", .obj [("k", .num 1)])]) "" ""
      = .error "AttributeError: list object has no attribute items" := by
  exact ⟨rfl, by decide⟩

/-- In exact (non-regex) mode `_verify_value` is total: it reduces to a pure
boolean on the textual renderings. -/
def exactMatchB (found expected : JValue) : Bool :=
  match found with
  | .arr items => items.any fun v => pyStr v == pyStr expected
  | v => pyStr v == pyStr expected

/-- Exact-mode `_verify_value` never faults and computes `exactMatchB`. -/
lemma verify_value_exact (compile : RegexCompiler) (found expected : JValue) :
    verify_value false compile found expected
      = .ok (exactMatchB found expected) := by
  cases found <;> rfl

/-- A criterion that is a single-entry mapping whose expected value, in regex
mode, is a string the compiler accepts, never faults. -/
lemma evalCriterion_total (is_regexes : Bool) (compile : RegexCompiler)
    (target : JValue) (k : String) (v : JValue)
    (hreg : is_regexes = true → ∃ p f, v = .str p ∧ compile p = some f) :
    ∃ b, evalCriterion is_regexes compile target (.obj [(k, v)]) = .ok b := by
  cases is_regexes with
  | false =>
      exact ⟨exactMatchB (resolvePath target k) v,
        by simp [evalCriterion, firstItem, verify_value_exact, Bind.bind, Except.bind]⟩
  | true =>
      obtain ⟨p, f, rfl, hc⟩ := hreg rfl
      exact ⟨(foundListOf (resolvePath target k)).any (fun w => f (pyStr w)),
        by simp [evalCriterion, firstItem, verify_value, hc, Bind.bind, Except.bind]⟩

/-- The criteria-set well-formedness that actually guarantees fault-free
evaluation: every element is a single-entry mapping and, in regex mode, its
expected value is a string the regex compiler accepts. -/
def SafeCriteria (is_regexes : Bool) (compile : RegexCompiler)
    (criteria : List JValue) : Prop :=
  ∀ c ∈ criteria, ∃ k v, c = .obj [(k, v)] ∧
    (is_regexes = true → ∃ p f, v = .str p ∧ compile p = some f)

/-- Under `SafeCriteria` the criterion loop never faults, from any count. -/
lemma runCriteria_total (is_regexes : Bool) (compile : RegexCompiler)
    (tgt : Nat) (target : JValue) :
    ∀ (cs : List JValue), SafeCriteria is_regexes compile cs →
      ∀ count : Nat,
        ∃ b, runCriteria is_regexes compile tgt target cs count = .ok b := by
  intro cs
  induction cs with
  | nil => exact fun _ count => ⟨false, rfl⟩
  | cons c rest ih =>
      intro h count
      obtain ⟨k, v, rfl, hreg⟩ := h c (List.mem_cons_self c rest)
      have hrest : SafeCriteria is_regexes compile rest :=
        fun c hc => h c (List.mem_cons_of_mem _ hc)
      obtain ⟨b, hb⟩ := evalCriterion_total is_regexes compile target k v hreg
      cases b with
      | true =>
          by_cases hcnt : count + 1 ≥ tgt
          · exact ⟨true, by simp [runCriteria, hb, hcnt, Bind.bind, Except.bind]⟩
          · obtain ⟨b2, hb2⟩ := ih hrest (count + 1)
            exact ⟨b2, by simp [runCriteria, hb, hcnt, hb2, Bind.bind, Except.bind]⟩
      | false =>
          obtain ⟨b2, hb2⟩ := ih hrest count
          exact ⟨b2, by simp [runCriteria, hb, hb2, Bind.bind, Except.bind]⟩

/-- Under `SafeCriteria` the target loop never faults. -/
lemma runTargets_total (is_regexes : Bool) (compile : RegexCompiler)
    (criteria : List JValue) (h : SafeCriteria is_regexes compile criteria) :
    ∀ ts : List JValue,
      ∃ b, runTargets is_regexes compile criteria ts = .ok b := by
  intro ts
  induction ts with
  | nil => exact ⟨false, rfl⟩
  | cons t rest ih =>
      obtain ⟨b, hb⟩ := runCriteria_total is_regexes compile
        criteria.length t criteria h 0
      cases b with
      | true => exact ⟨true, by simp [runTargets, hb, Bind.bind, Except.bind]⟩
      | false =>
          obtain ⟨b2, hb2⟩ := ih
          exact ⟨b2, by simp [runTargets, hb, hb2, Bind.bind, Except.bind]⟩

/-- C4 counterexample: a criteria set the construction accepts — the
single-entry mapping criterion with the integer 5 as its expected value —
makes evaluate fault in regex mode on a document whose bound path resolves to
content, because `re.compile(5)` is only attempted at evaluation time and
raises `TypeError`. The claim that construction success implies a non-faulting
evaluate, including in regex mode, is therefore false. -/
theorem claim_C4_counterexample :
    check_criteria_format (.arr [.obj [("k", .num 5)]]) = .ok () ∧
    VerifyReportSectionHasMatching.evaluate
      ⟨"a", .arr [.obj [("k", .num 5)]], true⟩ cmpAll
      (.obj [("a", .obj [("x", .num 1)])]) "" ""
      = .error "TypeError: first argument must be string or compiled pattern" := by
  exact ⟨rfl, by decide⟩

/-- C4 amended: evaluate never faults for a criteria set all of whose
elements are single-entry mappings whose expected values, in regex mode, are
strings the regex compiler accepts (`SafeCriteria`). Construction-time
validation alone does not guarantee this: it accepts any element of Python
length 1 and never validates regex expected values, and for such
construction-accepted sets evaluate can fault. -/
theorem claim_C4_amended (path : String) (is_regexes : Bool)
    (compile : RegexCompiler) (criteria : List JValue) (report : JValue)
    (report_string test_storage_directory : String)
    (h : SafeCriteria is_regexes compile criteria) :
    ∃ b, VerifyReportSectionHasMatching.evaluate
      ⟨path, .arr criteria, is_regexes⟩ compile report
      report_string test_storage_directory = .ok b := by
  simpa [VerifyReportSectionHasMatching.evaluate]
    using runTargets_total is_regexes compile criteria h
      (computeTargets report path)

/-- Witness for C4 (amended): a well-formed exact-mode criteria set evaluates
without fault on a concrete document. -/
theorem claim_C4_amended_witness :
    ∃ b, VerifyReportSectionHasMatching.evaluate
      ⟨"a", .arr [.obj [("k", .str "v")]], false⟩ cmpNone
      (.obj [("a", .obj [("k", .str "v")])]) "" "" = .ok b :=
  claim_C4_amended "a" false cmpNone [.obj [("k", .str "v")]]
    (.obj [("a", .obj [("k", .str "v")])]) "" ""
    (fun c hc => by
      simp only [List.mem_singleton] at hc
      exact ⟨"k", .str "v", hc, fun hfalse => by simp at hfalse⟩)

/-- The boolean a single exact-mode criterion computes against a target
element: resolve the first entry key of the criterion mapping relative to the
target and compare textual renderings; a criterion that is not a mapping with
at least one entry never matches (it faults in the source instead). -/
def exactCriterionB (target c : JValue) : Bool :=
  match c with
  | .obj ((k, v) :: _) => exactMatchB (resolvePath target k) v
  | _ => false

/-- On a non-empty mapping criterion the exact-mode criterion step is total
and computes `exactCriterionB`. -/
lemma evalCriterion_exact (compile : RegexCompiler) (target : JValue)
    (k : String) (v : JValue) (es : List (String × JValue)) :
    evalCriterion false compile target (.obj ((k, v) :: es))
      = .ok (exactCriterionB target (.obj ((k, v) :: es))) := by
  simp [evalCriterion, firstItem, verify_value_exact, exactCriterionB,
    Bind.bind, Except.bind]

/-- If the criterion loop early-returns True then the number of criteria that
match this target, plus the starting count, reaches the target number. -/
lemma runCriteria_necessity (is_regexes : Bool) (compile : RegexCompiler)
    (tgt : Nat) (t : JValue) :
    ∀ (cs : List JValue) (count : Nat),
      runCriteria is_regexes compile tgt t cs count = .ok true →
      tgt ≤ count + cs.countP
        fun cr => decide (evalCriterion is_regexes compile t cr = .ok true) := by
  intro cs
  induction cs with
  | nil => intro count h; simp [runCriteria] at h
  | cons cr rest ih =>
      intro count h
      cases heval : evalCriterion is_regexes compile t cr with
      | error e => simp [runCriteria, heval, Bind.bind, Except.bind] at h
      | ok b =>
          cases b with
          | false =>
              simp only [runCriteria, heval, Bind.bind, Except.bind] at h
              simp at h
              have hle := ih count h
              rw [List.countP_cons]
              simp [heval]
              omega
          | true =>
              simp only [runCriteria, heval, Bind.bind, Except.bind] at h
              simp at h
              rw [List.countP_cons]
              simp [heval]
              by_cases hcnt : count + 1 < tgt
              · have hle := ih (count + 1) (h hcnt)
                omega
              · omega

/-- If the target loop returns True then some target made the criterion loop
early-return. -/
lemma runTargets_necessity (is_regexes : Bool) (compile : RegexCompiler)
    (criteria : List JValue) :
    ∀ ts : List JValue,
      runTargets is_regexes compile criteria ts = .ok true →
      ∃ t ∈ ts,
        runCriteria is_regexes compile criteria.length t criteria 0
          = .ok true := by
  intro ts
  induction ts with
  | nil => intro h; simp [runTargets] at h
  | cons t rest ih =>
      intro h
      cases hrc : runCriteria is_regexes compile criteria.length t criteria 0 with
      | error e => simp [runTargets, hrc, Bind.bind, Except.bind] at h
      | ok b =>
          cases b with
          | true => exact ⟨t, List.mem_cons_self t rest, hrc⟩
          | false =>
              simp only [runTargets, hrc, Bind.bind, Except.bind] at h
              simp at h
              obtain ⟨t2, ht2, h2⟩ := ih h
              exact ⟨t2, List.mem_cons_of_mem _ ht2, h2⟩

/-- If every criterion in a non-empty exact-mode list matches the target and
the target number is within reach, the criterion loop early-returns True. -/
lemma runCriteria_sufficiency (compile : RegexCompiler) (t : JValue)
    (tgt : Nat) :
    ∀ (cs : List JValue) (count : Nat),
      (∀ c ∈ cs, ∃ k v, c = .obj [(k, v)] ∧ exactCriterionB t c = true) →
      cs ≠ [] → tgt ≤ count + cs.length →
      runCriteria false compile tgt t cs count = .ok true := by
  intro cs
  induction cs with
  | nil => intro count _ hne _; exact absurd rfl hne
  | cons c rest ih =>
      intro count hall hne hle
      obtain ⟨k, v, rfl, hmatch⟩ := hall _ (List.mem_cons_self _ _)
      have heval := evalCriterion_exact compile t k v []
      rw [hmatch] at heval
      by_cases hcnt : tgt ≤ count + 1
      · simp [runCriteria, heval, Bind.bind, Except.bind, hcnt]
      · have hrestne : rest ≠ [] := by
          intro hr
          subst hr
          simp at hle
          omega
        have hle2 : tgt ≤ (count + 1) + rest.length := by
          simp [List.length_cons] at hle
          omega
        have hrec := ih (count + 1)
          (fun c hc => hall c (List.mem_cons_of_mem _ hc)) hrestne hle2
        simp [runCriteria, heval, Bind.bind, Except.bind, hcnt, hrec]

/-- If the criteria are safe in exact mode and some listed target makes the
criterion loop early-return, the target loop returns True. -/
lemma runTargets_reach (compile : RegexCompiler) (criteria : List JValue)
    (hwf : SafeCriteria false compile criteria) :
    ∀ ts : List JValue,
      (∃ t ∈ ts,
        runCriteria false compile criteria.length t criteria 0 = .ok true) →
      runTargets false compile criteria ts = .ok true := by
  intro ts
  induction ts with
  | nil => rintro ⟨t, ht, _⟩; simp at ht
  | cons t0 rest ih =>
      rintro ⟨t, ht, hrc⟩
      rcases List.mem_cons.mp ht with rfl | hmem
      · simp [runTargets, hrc, Bind.bind, Except.bind]
      · obtain ⟨b, hb⟩ := runCriteria_total false compile
          criteria.length t0 criteria hwf 0
        cases b with
        | true => simp [runTargets, hb, Bind.bind, Except.bind]
        | false =>
            have hrest := ih ⟨t, hmem, hrc⟩
            simp [runTargets, hb, Bind.bind, Except.bind, hrest]

/-- C6: criteria satisfaction is element-local. In any mode, evaluate can
return True only if some single target element satisfies every criterion in
the set (the per-target counter resets between targets, so no cross-element
credit is possible); and in exact mode, for single-entry mapping criteria,
True is equivalent to the existence of one target element on which every
criterion matches (together with the criteria list being non-empty). -/
theorem claim_C6_element_local (path : String) (is_regexes : Bool)
    (compile : RegexCompiler) (criteria : List JValue) (report : JValue)
    (report_string test_storage_directory : String) :
    (VerifyReportSectionHasMatching.evaluate ⟨path, .arr criteria, is_regexes⟩
        compile report report_string test_storage_directory = .ok true →
      ∃ t ∈ computeTargets report path,
        ∀ c ∈ criteria, evalCriterion is_regexes compile t c = .ok true) ∧
    ((∀ c ∈ criteria, ∃ k v, c = .obj [(k, v)]) →
      (VerifyReportSectionHasMatching.evaluate ⟨path, .arr criteria, false⟩
          compile report report_string test_storage_directory = .ok true ↔
        ∃ t ∈ computeTargets report path, 0 < criteria.length ∧
          ∀ c ∈ criteria, exactCriterionB t c = true)) := by
  constructor
  · intro h
    have h1 : runTargets is_regexes compile criteria
        (computeTargets report path) = .ok true := by
      simpa [VerifyReportSectionHasMatching.evaluate] using h
    obtain ⟨t, ht, hrc⟩ := runTargets_necessity is_regexes compile criteria _ h1
    refine ⟨t, ht, ?_⟩
    have hle := runCriteria_necessity is_regexes compile
      criteria.length t criteria 0 hrc
    have hcp : criteria.countP
        (fun cr => decide (evalCriterion is_regexes compile t cr = .ok true))
        = criteria.length :=
      le_antisymm (List.countP_le_length _) (by omega)
    intro c hc
    exact of_decide_eq_true (List.countP_eq_length.mp hcp c hc)
  · intro hwf
    constructor
    · intro h
      have h1 : runTargets false compile criteria
          (computeTargets report path) = .ok true := by
        simpa [VerifyReportSectionHasMatching.evaluate] using h
      obtain ⟨t, ht, hrc⟩ := runTargets_necessity false compile criteria _ h1
      have hle := runCriteria_necessity false compile
        criteria.length t criteria 0 hrc
      have hcp : criteria.countP
          (fun cr => decide (evalCriterion false compile t cr = .ok true))
          = criteria.length :=
        le_antisymm (List.countP_le_length _) (by omega)
      refine ⟨t, ht, ?_, ?_⟩
      · cases criteria with
        | nil => simp [runCriteria] at hrc
        | cons c cs => simp
      · intro c hc
        obtain ⟨k, v, rfl⟩ := hwf c hc
        have hcrit : evalCriterion false compile t (.obj [(k, v)]) = .ok true :=
          of_decide_eq_true (List.countP_eq_length.mp hcp _ hc)
        rw [evalCriterion_exact] at hcrit
        simpa using hcrit
    · rintro ⟨t, ht, hne, hall⟩
      have hsafe : SafeCriteria false compile criteria := by
        intro c hc
        obtain ⟨k, v, rfl⟩ := hwf c hc
        exact ⟨k, v, rfl, fun hr => by simp at hr⟩
      have hrc : runCriteria false compile criteria.length t criteria 0
          = .ok true := by
        apply runCriteria_sufficiency compile t criteria.length criteria 0
        · intro c hc
          obtain ⟨k, v, rfl⟩ := hwf c hc
          exact ⟨k, v, rfl, hall _ hc⟩
        · exact List.ne_nil_of_length_pos hne
        · simp
      have hrt := runTargets_reach compile criteria hsafe
        (computeTargets report path) ⟨t, ht, hrc⟩
      simpa [VerifyReportSectionHasMatching.evaluate] using hrt

/-- Witness for C6, at the claim's own two-element scenario: element A
satisfies criterion 1 but not criterion 2, element B satisfies criterion 2
but not criterion 1, and evaluate does not return True. -/
theorem claim_C6_element_local_witness :
    ¬ (VerifyReportSectionHasMatching.evaluate
        ⟨"items", .arr [.obj [("c1", .str "x")], .obj [("c2", .str "y")]],
         false⟩
        cmpNone
        (.obj [("items", .arr
          [.obj [("c1", .str "x"), ("c2", .str "n")],
           .obj [("c1", .str "n"), ("c2", .str "y")]])])
        "" "" = .ok true) := by
  intro h
  have hwf : ∀ c ∈ [JValue.obj [("c1", JValue.str "x")],
      JValue.obj [("c2", JValue.str "y")]], ∃ k v, c = JValue.obj [(k, v)] := by
    intro c hc
    simp only [List.mem_cons, List.mem_singleton] at hc
    rcases hc with rfl | hc
    · exact ⟨"c1", .str "x", rfl⟩
    · rcases hc with rfl | hc
      · exact ⟨"c2", .str "y", rfl⟩
      · simp at hc
  have hex := ((claim_C6_element_local "items" false cmpNone
    [.obj [("c1", .str "x")], .obj [("c2", .str "y")]]
    (.obj [("items", .arr
      [.obj [("c1", .str "x"), ("c2", .str "n")],
       .obj [("c1", .str "n"), ("c2", .str "y")]])])
    "" "").2 hwf).mp h
  revert hex
  decide

mutual

/-- A skipped subtree is skipped at every node. -/
lemma setSkipped_allSkipped (reason : String) :
    ∀ o : CapeTestObjective, (setSkipped reason o).allSkipped = true
  | .node n i sm fm rv cs => by
      simp only [setSkipped, ResultTree.allSkipped]
      exact setSkippedList_all reason cs

/-- A skipped child list is skipped at every node. -/
lemma setSkippedList_all (reason : String) :
    ∀ cs : List CapeTestObjective,
      allSkippedList (setSkippedList reason cs) = true
  | [] => rfl
  | c :: cs => by
      simp only [setSkippedList, allSkippedList, Bool.and_eq_true]
      exact ⟨setSkipped_allSkipped reason c, setSkippedList_all reason cs⟩

end

/-- The result half of the child loop is the map of the independent runs of
the children, in order. -/
lemma runChildren_fst (ctx : Ctx) :
    ∀ cs : List CapeTestObjective,
      (runChildren ctx cs).1
        = cs.map fun c => (c.name, (runObjectiveVerification ctx c).1) := by
  intro cs
  induction cs with
  | nil => rfl
  | cons c rest ih => simp [runChildren, ih]

/-- The invocation half of the child loop is the concatenation of the
invocation lists of the independent runs of the children, in order. -/
lemma runChildren_snd (ctx : Ctx) :
    ∀ cs : List CapeTestObjective,
      (runChildren ctx cs).2
        = cs.flatMap fun c => (runObjectiveVerification ctx c).2 := by
  intro cs
  induction cs with
  | nil => rfl
  | cons c rest ih => simp [runChildren, ih]

/-- C7: post-state dispatch of the objective tree evaluator. If a node's
resulting state is neither Success nor Info (so Failure or Error), every
transitive descendant ends the pass Skipped and no descendant's verifier is
invoked (the invocation list is exactly the node itself). If the state is
Success or Info, the node's own context is propagated to every child and each
child's verification runs recursively, the child results being exactly the
independent runs of the children under this context. -/
theorem claim_C7_cascade (ctx : Ctx) (o : CapeTestObjective) :
    ((runObjectiveVerification ctx o).1.state ≠ .success →
     (runObjectiveVerification ctx o).1.state ≠ .info →
      allSkippedList (runObjectiveVerification ctx o).1.children = true ∧
      (runObjectiveVerification ctx o).2 = [o.name]) ∧
    (((runObjectiveVerification ctx o).1.state = .success ∨
      (runObjectiveVerification ctx o).1.state = .info) →
      (runObjectiveVerification ctx o).1.children
        = o.children.map (fun c => (c.name, (runObjectiveVerification ctx c).1)) ∧
      (runObjectiveVerification ctx o).2
        = o.name :: o.children.flatMap fun c => (runObjectiveVerification ctx c).2) := by
  cases o with
  | node n i sm fm rv cs =>
      cases hv : rv ctx with
      | error e =>
          constructor
          · intro _ _
            refine ⟨?_, ?_⟩
            · simp only [runObjectiveVerification, hv]
              simp [ResultTree.children]
              exact setSkippedList_all _ cs
            · simp only [runObjectiveVerification, hv]
              simp [CapeTestObjective.name]
          · intro hs
            simp only [runObjectiveVerification, hv] at hs
            simp [ResultTree.state] at hs
      | ok r =>
          cases i with
          | true =>
              constructor
              · intro _ h2
                exact absurd (by
                  simp only [runObjectiveVerification, hv]
                  cases r <;> simp [ResultTree.state]) h2
              · intro _
                refine ⟨?_, ?_⟩
                · simp only [runObjectiveVerification, hv]
                  cases r <;>
                    simp [ResultTree.children, CapeTestObjective.children,
                      runChildren_fst]
                · simp only [runObjectiveVerification, hv]
                  cases r <;>
                    simp [CapeTestObjective.name, CapeTestObjective.children,
                      runChildren_snd]
          | false =>
              cases r with
              | true =>
                  constructor
                  · intro h1 _
                    exact absurd (by
                      simp only [runObjectiveVerification, hv]
                      simp [ResultTree.state]) h1
                  · intro _
                    refine ⟨?_, ?_⟩
                    · simp only [runObjectiveVerification, hv]
                      simp [ResultTree.children, CapeTestObjective.children,
                        runChildren_fst]
                    · simp only [runObjectiveVerification, hv]
                      simp [CapeTestObjective.name, CapeTestObjective.children,
                        runChildren_snd]
              | false =>
                  constructor
                  · intro _ _
                    refine ⟨?_, ?_⟩
                    · simp only [runObjectiveVerification, hv]
                      simp [ResultTree.children]
                      exact setSkippedList_all _ cs
                    · simp only [runObjectiveVerification, hv]
                      simp [CapeTestObjective.name]
                  · intro hs
                    simp only [runObjectiveVerification, hv] at hs
                    simp [ResultTree.state] at hs

/-- A fixed context for concrete objective-tree statements. -/
def demoCtx : Ctx := ⟨.null, "", ""⟩

/-- A concrete tree whose root verifier returns False, with a child and a
grandchild whose verifiers would succeed if invoked. -/
def demoFailTree : CapeTestObjective :=
  .node "root" false "ok" "bad" (fun _ => .ok false)
    [.node "child" false "ok" "bad" (fun _ => .ok true)
      [.node "grandchild" false "ok" "bad" (fun _ => .ok true) []]]

/-- Witness for C7: on the failing root, the child and grandchild both end
Skipped and only the root's verifier is ever invoked. -/
theorem claim_C7_cascade_witness :
    allSkippedList (runObjectiveVerification demoCtx demoFailTree).1.children
      = true ∧
    (runObjectiveVerification demoCtx demoFailTree).2 = ["root"] :=
  (claim_C7_cascade demoCtx demoFailTree).1 (by decide) (by decide)

/-- C8: a verifier fault is converted at the objective boundary. If the bound
verifier faults on the given context, the objective ends in state Error with
a reason embedding the fault description; the fault is not re-raised (the run
produces a result tree, not a fault), and in any sibling list the other
objectives are still evaluated independently, each contributing exactly its
own independent run. -/
theorem claim_C8_fault_isolation (ctx : Ctx) (o : CapeTestObjective)
    (e : String) (h : o.result_verifier ctx = .error e) :
    (runObjectiveVerification ctx o).1.state = .error ∧
    (runObjectiveVerification ctx o).1.state_reason
      = "An exception was thrown during verification: " ++ e ∧
    ∀ pre post : List CapeTestObjective,
      (runChildren ctx (pre ++ o :: post)).1
        = (runChildren ctx pre).1
          ++ (o.name, (runObjectiveVerification ctx o).1)
            :: (runChildren ctx post).1 := by
  cases o with
  | node n i sm fm rv cs =>
      simp only [CapeTestObjective.result_verifier] at h
      refine ⟨?_, ?_, ?_⟩
      · simp only [runObjectiveVerification, h]
        simp [ResultTree.state]
      · simp only [runObjectiveVerification, h]
        simp [ResultTree.state_reason]
      · intro pre post
        simp [runChildren_fst, CapeTestObjective.name]

/-- Witness for C8: a verifier faulting with "boom" yields state Error and
the embedding reason. -/
theorem claim_C8_fault_isolation_witness :
    (runObjectiveVerification demoCtx
      (.node "bad" false "s" "f" (fun _ => .error "boom") [])).1.state
      = .error ∧
    (runObjectiveVerification demoCtx
      (.node "bad" false "s" "f" (fun _ => .error "boom") [])).1.state_reason
      = "An exception was thrown during verification: " ++ "boom" :=
  ⟨(claim_C8_fault_isolation demoCtx
      (.node "bad" false "s" "f" (fun _ => .error "boom") []) "boom" rfl).1,
   (claim_C8_fault_isolation demoCtx
      (.node "bad" false "s" "f" (fun _ => .error "boom") []) "boom" rfl).2.1⟩

/-- A concrete filesystem that does contain a regular file at /etc/passwd,
used to show an escaping evaluation faults without the file being read. -/
def fsWithPasswd : FileSystem :=
  fun p => if p = ["etc", "passwd"] then some (.file "root:x:0:0:root") else none

/-- C9: the file-pattern verifier. If the relative path, resolved and
normalized against the storage root, escapes the root, evaluation faults with
the traversal error — for every filesystem whatsoever, so the file (whose
content the result would otherwise depend on) is never read. If the resolved
path stays under the root but nothing exists there, or a non-regular entry
exists there, evaluation returns False, not a fault. -/
theorem claim_C9_traversal (v : VerifyFileContainsPattern) (report : JValue)
    (report_string test_storage_directory : String) (fs : FileSystem) :
    ((storageBase test_storage_directory).isPrefixOf
        (resolvedFilePath test_storage_directory v.relative_path) = false →
      ∀ fs2 : FileSystem,
        v.evaluate fs2 report report_string test_storage_directory
          = .error ("Non-relative path supplied to VerifyFileContainsPattern: "
              ++ v.relative_path)) ∧
    ((storageBase test_storage_directory).isPrefixOf
        (resolvedFilePath test_storage_directory v.relative_path) = true →
      fs (resolvedFilePath test_storage_directory v.relative_path) = none →
      v.evaluate fs report report_string test_storage_directory = .ok false) ∧
    ((storageBase test_storage_directory).isPrefixOf
        (resolvedFilePath test_storage_directory v.relative_path) = true →
      fs (resolvedFilePath test_storage_directory v.relative_path)
        = some .dir →
      v.evaluate fs report report_string test_storage_directory
        = .ok false) := by
  refine ⟨?_, ?_, ?_⟩
  · intro hesc fs2
    simp [VerifyFileContainsPattern.evaluate, hesc]
  · intro hin hnone
    simp [VerifyFileContainsPattern.evaluate, hin, hnone]
  · intro hin hdir
    simp [VerifyFileContainsPattern.evaluate, hin, hdir]

/-- Witness for C9 at the spec's own input: relative path "../../etc/passwd"
against storage root /tmp/case1 resolves to /etc/passwd, which is outside the
root, so evaluation faults with the traversal error even on a filesystem
where that file exists with content the (always-matching) pattern would
find — the file is never read. -/
theorem claim_C9_traversal_witness :
    ((storageBase "/tmp/case1").isPrefixOf
        (resolvedFilePath "/tmp/case1" "../../etc/passwd") = false) ∧
    VerifyFileContainsPattern.evaluate
      ⟨"../../etc/passwd", fun _ => true, false⟩ fsWithPasswd
      .null "" "/tmp/case1"
      = .error ("Non-relative path supplied to VerifyFileContainsPattern: "
          ++ "../../etc/passwd") :=
  ⟨by decide,
   (claim_C9_traversal ⟨"../../etc/passwd", fun _ => true, false⟩ .null ""
      "/tmp/case1" fsWithPasswd).1 (by decide) fsWithPasswd⟩
